import Mathlib

/-!
Shallow embedding of the flag-state synchronization and override-layering
engine of `internal/dev_server/model` (project.go, environments.go).

Go `error` values are modelled by the inductive `GoError`; fallible Go
functions return `Except GoError α`.  Stateful store access is modelled by
an abstract record of store operations over a store-state type `σ`, and
each engine function additionally returns the trace of adapter/store calls
it performed (`List Effect`), so that claims about which writes happened
can be stated.  `time.Now()` is modelled by an explicit `now : Nat`
parameter.  JSON-like `ldvalue.Value`s are modelled by `LDValue`.
-/

namespace LdcliModel

/-- JSON-like value (`ldvalue.Value`). -/
inductive LDValue where
  | nullV : LDValue
  | boolV (b : Bool) : LDValue
  | numV (n : Int) : LDValue
  | strV (s : String) : LDValue
  deriving DecidableEq, Repr

/-- Evaluation context (`ldcontext.Context`), reduced to the parts the engine
touches: `ldcontext.NewBuilder(kind).Key(key).Build()`. -/
structure LDContext where
  kind : String
  key : String
  deriving DecidableEq, Repr

/-- Go `error` values: `errors.New msg`, the typed `ErrNotFound` /
`ErrAlreadyExists` of the model package, and `errors.Wrapf err msg`. -/
inductive GoError where
  | base (msg : String) : GoError
  | notFound (kind key : String) : GoError
  | alreadyExists (kind key : String) : GoError
  | wrap (msg : String) (inner : GoError) : GoError
  deriving DecidableEq, Repr

/-- One flag's synced value and version (`FlagState` of the model package). -/
structure FlagState where
  Value : LDValue
  Version : Int
  deriving DecidableEq, Repr

/-- Mapping flag key → FlagState (`FlagsState`); a Go map, modelled as an
association list with unique keys. -/
abbrev FlagsState := List (String × FlagState)

/-- Lookup of a flag key in a `FlagsState` (Go map indexing). -/
def FlagsState.lookup (fs : FlagsState) (k : String) : Option FlagState :=
  match List.find? (fun kv => kv.1 == k) fs with
  | some kv => some kv.2
  | none => none

/-- One possible flag value (`Variation`). -/
structure Variation where
  Id : String
  Name : Option String
  Description : Option String
  Value : LDValue
  deriving DecidableEq, Repr

/-- A variation tagged with its flag key (`FlagVariation`). -/
structure FlagVariation where
  FlagKey : String
  Variation : Variation
  deriving DecidableEq, Repr

/-- The `Project` struct of project.go. -/
structure Project where
  Key : String
  SourceEnvironmentKey : String
  SourceProjectKey : String
  Context : LDContext
  LastSyncTime : Nat
  AllFlagsState : FlagsState
  AvailableVariations : List FlagVariation
  deriving DecidableEq, Repr

/-- The `Override` struct of the model package. -/
structure Override where
  ProjectKey : String
  FlagKey : String
  Value : LDValue
  Active : Bool
  Version : Int
  deriving DecidableEq, Repr

/-- `Overrides` is a slice of Override. -/
abbrev Overrides := List Override

/-- Modelled from the spec: `Overrides.GetFlag` (override.go, not under src/)
returns the override stored for the given flag key, if any; the data model
makes FlagKey unique per (ProjectKey, FlagKey) pair, so the first match is
the only match. -/
def Overrides.GetFlag (os : Overrides) (key : String) : Option Override :=
  List.find? (fun o => o.FlagKey == key) os

/-- Modelled from the spec: `Override.Apply` (override.go, not under src/) is
the pure merge (FlagState, Override) → FlagState: an active override replaces
the flag's value with the override's value and increments the version by one
relative to the synced version; an inactive override is ignored entirely, as
if absent. -/
def Override.Apply (o : Override) (state : FlagState) : FlagState :=
  if o.Active then { Value := o.Value, Version := state.Version + 1 }
  else state

/-- `GetCloudProjectKey` of project.go: `SourceProjectKey` if non-empty,
else `Key`. -/
def Project.GetCloudProjectKey (p : Project) : String :=
  if p.SourceProjectKey != "" then p.SourceProjectKey
  else p.Key

/-- A `SyncEvent` published to observers on successful update. -/
structure SyncEvent where
  ProjectKey : String
  AllFlagsState : FlagsState
  deriving DecidableEq, Repr

/-- Adapter environment record returned by the management API. -/
structure ApiEnvironment where
  Key : String
  Name : String
  deriving DecidableEq, Repr

/-- The `Environment` struct of environments.go. -/
structure Environment where
  Key : String
  Name : String
  deriving DecidableEq, Repr

/-- One remote feature flag with its variations, as returned by the
management adapter's GetAllFlags. -/
structure ApiFlag where
  Key : String
  Variations : List Variation
  deriving DecidableEq, Repr

/-- The all-flags state returned by the SDK adapter; `FromAllFlags` converts
it to a `FlagsState`. -/
abbrev AllFlags := FlagsState

/-- Modelled from the spec: `FromAllFlags` (flag_state.go, not under src/)
reads the adapter's all-flags state as the mapping flag key →
{value, version}. -/
def FromAllFlags (a : AllFlags) : FlagsState := a

/-- The remote management adapter interface (`adapters.GetApi`). -/
structure Api where
  GetSdkKey : String → String → Except GoError String
  GetAllFlags : String → Except GoError (List ApiFlag)
  GetProjectEnvironments : String → String → Option Int → Except GoError (List ApiEnvironment)

/-- The remote evaluation adapter interface (`adapters.GetSdk`). -/
structure Sdk where
  GetAllFlagsState : LDContext → String → Except GoError AllFlags

/-- The persistent store interface reached through the request context,
over an abstract store-state type `σ`.  Operations that write return the
new store state. -/
structure Store (σ : Type) where
  GetDevProject : σ → String → Except GoError Project
  InsertProject : σ → Project → Except GoError σ
  UpdateProject : σ → Project → Except GoError (Bool × σ)
  GetOverridesForProject : σ → String → Except GoError Overrides
  UpsertOverride : σ → Override → Except GoError (Override × σ)

/-- Trace entry: one adapter or store call made by the engine. -/
inductive Effect where
  | getDevProjectE (key : String) : Effect
  | insertProjectE (p : Project) : Effect
  | updateProjectE (p : Project) : Effect
  | getOverridesE (key : String) : Effect
  | upsertOverrideE (o : Override) : Effect
  | getSdkKeyE (projKey envKey : String) : Effect
  | getAllFlagsStateE (ctx : LDContext) (sdkKey : String) : Effect
  | getAllFlagsE (projKey : String) : Effect
  | getProjectEnvironmentsE (projKey query : String) (limit : Option Int) : Effect
  | notifyE (e : SyncEvent) : Effect
  deriving DecidableEq, Repr

/-- Whether a trace entry is a store write. -/
def Effect.isWrite : Effect → Bool
  | .insertProjectE _ => true
  | .updateProjectE _ => true
  | .upsertOverrideE _ => true
  | _ => false

/-- `fetchFlagState` of project.go: obtain the SDK key for the cloud project
key and source environment, then ask the SDK adapter for the all-flags state
and convert it via `FromAllFlags`. -/
def Project.fetchFlagState (api : Api) (sdk : Sdk) (project : Project) :
    Except GoError FlagsState × List Effect :=
  match api.GetSdkKey project.GetCloudProjectKey project.SourceEnvironmentKey with
  | .error e => (.error e, [.getSdkKeyE project.GetCloudProjectKey project.SourceEnvironmentKey])
  | .ok sdkKey =>
    match sdk.GetAllFlagsState project.Context sdkKey with
    | .error e =>
        (.error e,
         [.getSdkKeyE project.GetCloudProjectKey project.SourceEnvironmentKey,
          .getAllFlagsStateE project.Context sdkKey])
    | .ok sdkFlags =>
        (.ok (FromAllFlags sdkFlags),
         [.getSdkKeyE project.GetCloudProjectKey project.SourceEnvironmentKey,
          .getAllFlagsStateE project.Context sdkKey])

/-- `fetchAvailableVariations` of project.go: fetch the flag catalog for the
cloud project key and flatten each flag's variations into `FlagVariation`s. -/
def Project.fetchAvailableVariations (api : Api) (project : Project) :
    Except GoError (List FlagVariation) × List Effect :=
  match api.GetAllFlags project.GetCloudProjectKey with
  | .error e => (.error e, [.getAllFlagsE project.GetCloudProjectKey])
  | .ok flags =>
      (.ok (flags.flatMap fun flag =>
        flag.Variations.map fun variation =>
          { FlagKey := flag.Key, Variation := variation }),
       [.getAllFlagsE project.GetCloudProjectKey])

/-- `refreshExternalState` of project.go: fetch the flag state, stamp
`AllFlagsState` and `LastSyncTime`, then fetch the variation catalog.  The Go
method mutates its receiver; here the updated project is returned. -/
def Project.refreshExternalState (api : Api) (sdk : Sdk) (now : Nat) (project : Project) :
    Except GoError Project × List Effect :=
  match project.fetchFlagState api sdk with
  | (.error e, tr) => (.error e, tr)
  | (.ok flagsState, tr1) =>
    let project1 := { project with AllFlagsState := flagsState, LastSyncTime := now }
    match project1.fetchAvailableVariations api with
    | (.error e, tr2) => (.error e, tr1 ++ tr2)
    | (.ok availableVariations, tr2) =>
        (.ok { project1 with AvailableVariations := availableVariations }, tr1 ++ tr2)

/-- The default evaluation context of `CreateProject`:
`ldcontext.NewBuilder("user").Key("dev-environment").Build()`. -/
def defaultContext : LDContext := { kind := "user", key := "dev-environment" }

/-- The fresh project built at the head of `CreateProject`: the given keys,
the default context when none is supplied, all other fields at their Go zero
values. -/
def newProject (projectKey sourceEnvironmentKey : String) (ldCtx : Option LDContext) :
    Project :=
  { Key := projectKey
    SourceEnvironmentKey := sourceEnvironmentKey
    SourceProjectKey := ""
    Context := match ldCtx with
      | none => defaultContext
      | some c => c
    LastSyncTime := 0
    AllFlagsState := []
    AvailableVariations := [] }

/-- `CreateProject` of project.go: build the fresh project (default context if
none given), refresh external state, then insert into the store. -/
def CreateProject (api : Api) (sdk : Sdk) {σ : Type} (store : Store σ) (now : Nat)
    (s : σ) (projectKey sourceEnvironmentKey : String) (ldCtx : Option LDContext) :
    Except GoError Project × σ × List Effect :=
  let project : Project := newProject projectKey sourceEnvironmentKey ldCtx
  match project.refreshExternalState api sdk now with
  | (.error e, tr) => (.error e, s, tr)
  | (.ok project, tr) =>
    match store.InsertProject s project with
    | .error e => (.error e, s, tr ++ [.insertProjectE project])
    | .ok s1 => (.ok project, s1, tr ++ [.insertProjectE project])

/-- The override `CloneProject` passes to `UpsertOverride` for one source
override: `ProjectKey` is the target key; `FlagKey`, `Value`, `Active` are the
source's; `Version` is left at the Go zero value. -/
def clonedOverrideFor (targetKey : String) (override : Override) : Override :=
  { ProjectKey := targetKey
    FlagKey := override.FlagKey
    Value := override.Value
    Active := override.Active
    Version := 0 }

/-- The override-copy loop of `CloneProject`: upsert each source override
re-keyed to the target; on failure return the wrapped error naming the flag
key.  Writes made before the failure are kept (no rollback). -/
def cloneOverridesLoop {σ : Type} (store : Store σ) (targetKey : String) :
    List Override → σ → Except GoError Unit × σ × List Effect
  | [], s => (.ok (), s, [])
  | override :: rest, s =>
    let clonedOverride := clonedOverrideFor targetKey override
    match store.UpsertOverride s clonedOverride with
    | .error e =>
        (.error (.wrap ("unable to clone override for flag " ++ override.FlagKey) e), s,
         [.upsertOverrideE clonedOverride])
    | .ok (_, s1) =>
        match cloneOverridesLoop store targetKey rest s1 with
        | (res, s2, tr) => (res, s2, .upsertOverrideE clonedOverride :: tr)

/-- The clone `CloneProject` builds from the source project: the target key,
the source's environment key, context, flag state and variations, and
`SourceProjectKey := sourceProject.GetCloudProjectKey` (the provenance
indirection), with `LastSyncTime := now` and no remote fetch. -/
def cloneOf (sourceProject : Project) (targetKey : String) (now : Nat) : Project :=
  { Key := targetKey
    SourceEnvironmentKey := sourceProject.SourceEnvironmentKey
    SourceProjectKey := sourceProject.GetCloudProjectKey
    Context := sourceProject.Context
    LastSyncTime := now
    AllFlagsState := sourceProject.AllFlagsState
    AvailableVariations := sourceProject.AvailableVariations }

/-- `CloneProject` of project.go: load the source project, insert its clone,
and optionally copy the source's overrides over to the target key. -/
def CloneProject {σ : Type} (store : Store σ) (now : Nat) (s : σ)
    (sourceKey targetKey : String) (includeOverrides : Bool) :
    Except GoError Project × σ × List Effect :=
  match store.GetDevProject s sourceKey with
  | .error e =>
      (.error (.wrap ("unable to get source project " ++ sourceKey) e), s,
       [.getDevProjectE sourceKey])
  | .ok sourceProject =>
    let clonedProject := cloneOf sourceProject targetKey now
    match store.InsertProject s clonedProject with
    | .error e =>
        (.error (.wrap ("unable to insert cloned project " ++ targetKey) e), s,
         [.getDevProjectE sourceKey, .insertProjectE clonedProject])
    | .ok s1 =>
      if includeOverrides then
        match store.GetOverridesForProject s1 sourceKey with
        | .error e =>
            (.error (.wrap ("unable to get overrides for source project " ++ sourceKey) e), s1,
             [.getDevProjectE sourceKey, .insertProjectE clonedProject, .getOverridesE sourceKey])
        | .ok sourceOverrides =>
          match cloneOverridesLoop store targetKey sourceOverrides s1 with
          | (.error e, s2, tr) =>
              (.error e, s2,
               [.getDevProjectE sourceKey, .insertProjectE clonedProject,
                .getOverridesE sourceKey] ++ tr)
          | (.ok _, s2, tr) =>
              (.ok clonedProject, s2,
               [.getDevProjectE sourceKey, .insertProjectE clonedProject,
                .getOverridesE sourceKey] ++ tr)
      else (.ok clonedProject, s1, [.getDevProjectE sourceKey, .insertProjectE clonedProject])

/-- The loop body of `GetFlagStateWithOverridesForProject` for one flag:
apply the stored override for the flag key if there is one, else keep the
synced state. -/
def layerFlag (overrides : Overrides) (flagKey : String) (flagState : FlagState) :
    FlagState :=
  match overrides.GetFlag flagKey with
  | some override => override.Apply flagState
  | none => flagState

/-- The fresh mapping `GetFlagStateWithOverridesForProject` builds: every
synced flag key, each with its override-layered state. -/
def layeredFlags (project : Project) (overrides : Overrides) : FlagsState :=
  project.AllFlagsState.map fun kv => (kv.1, layerFlag overrides kv.1 kv.2)

/-- `GetFlagStateWithOverridesForProject` of project.go: fetch the project's
overrides and build a fresh mapping in which each synced flag whose key has a
stored override gets `Override.Apply` applied; the project's own
`AllFlagsState` and the store are read only (the unchanged store state is
returned). -/
def Project.GetFlagStateWithOverridesForProject {σ : Type} (store : Store σ) (s : σ)
    (project : Project) : Except GoError FlagsState × σ × List Effect :=
  match store.GetOverridesForProject s project.Key with
  | .error e =>
      (.error (.wrap ("unable to fetch overrides for project " ++ project.Key) e), s,
       [.getOverridesE project.Key])
  | .ok overrides =>
      (.ok (layeredFlags project overrides), s, [.getOverridesE project.Key])

/-- The two optional field updates at the head of `UpdateProject`: overwrite
`Context` and `SourceEnvironmentKey` when the caller supplied them. -/
def applyProjectUpdates (project : Project) (ctx : Option LDContext)
    (sourceEnvironmentKey : Option String) : Project :=
  let project1 := match ctx with
    | none => project
    | some c => { project with Context := c }
  match sourceEnvironmentKey with
  | none => project1
  | some k => { project1 with SourceEnvironmentKey := k }

/-- `UpdateProject` of project.go: load the project, apply the optional field
updates, refresh external state, conditionally update the store (failing with
"Project not updated" when the store reports no change), then compute the
override-layered state and notify the observers. -/
def UpdateProject (api : Api) (sdk : Sdk) {σ : Type} (store : Store σ) (now : Nat)
    (s : σ) (projectKey : String) (ctx : Option LDContext)
    (sourceEnvironmentKey : Option String) :
    Except GoError Project × σ × List Effect :=
  match store.GetDevProject s projectKey with
  | .error e => (.error e, s, [.getDevProjectE projectKey])
  | .ok project0 =>
    let project2 := applyProjectUpdates project0 ctx sourceEnvironmentKey
    match project2.refreshExternalState api sdk now with
    | (.error e, tr) => (.error e, s, .getDevProjectE projectKey :: tr)
    | (.ok project, tr) =>
      match store.UpdateProject s project with
      | .error e =>
          (.error e, s, .getDevProjectE projectKey :: tr ++ [.updateProjectE project])
      | .ok (updated, s1) =>
        if !updated then
          (.error (.base "Project not updated"), s1,
           .getDevProjectE projectKey :: tr ++ [.updateProjectE project])
        else
          match project.GetFlagStateWithOverridesForProject store s1 with
          | (.error e, s2, tr2) =>
              (.error (.wrap ("unable to get overrides for project, " ++ projectKey) e), s2,
               .getDevProjectE projectKey :: tr ++ [.updateProjectE project] ++ tr2)
          | (.ok allFlagsWithOverrides, s2, tr2) =>
              let event : SyncEvent :=
                { ProjectKey := project.Key, AllFlagsState := allFlagsWithOverrides }
              (.ok project, s2,
               .getDevProjectE projectKey :: tr ++ [.updateProjectE project] ++ tr2
                 ++ [.notifyE event])

/-- `GetEnvironmentsForProject` of environments.go: load the project, query
the management adapter with the project's cloud project key, and map the
adapter environments into model `Environment`s. -/
def GetEnvironmentsForProject (api : Api) {σ : Type} (store : Store σ) (s : σ)
    (projectKey query : String) (limit : Option Int) :
    Except GoError (List Environment) × List Effect :=
  match store.GetDevProject s projectKey with
  | .error e => (.error e, [.getDevProjectE projectKey])
  | .ok project =>
    match api.GetProjectEnvironments project.GetCloudProjectKey query limit with
    | .error e =>
        (.error e,
         [.getDevProjectE projectKey,
          .getProjectEnvironmentsE project.GetCloudProjectKey query limit])
    | .ok environments =>
        (.ok (environments.map fun environment =>
          { Key := environment.Key, Name := environment.Name }),
         [.getDevProjectE projectKey,
          .getProjectEnvironmentsE project.GetCloudProjectKey query limit])

/-- The observer registry (`Observers`), modelled from the spec: an ordered
sequence of handlers.  A handler's `none` result models a failed or panicking
observer; `some ()` a successful one. -/
structure Observers where
  observers : List (SyncEvent → Option Unit)

/-- Modelled from the spec: `RegisterObserver` appends to the ordered
sequence. -/
def Observers.RegisterObserver (os : Observers) (handler : SyncEvent → Option Unit) :
    Observers :=
  { observers := os.observers ++ [handler] }

/-- Modelled from the spec: `Notify` invokes every registered observer's
handler synchronously, in registration order, with the same `SyncEvent`
value; each invocation is isolated, so a handler's failure does not prevent
delivery to subsequent observers.  The list of per-observer delivery results,
in registration order, is returned. -/
def Observers.Notify (os : Observers) (event : SyncEvent) : List (Option Unit) :=
  os.observers.map fun handler => handler event

/-- Concrete store state backing the spec's persistent-store interface. -/
structure StoreState where
  projects : List Project
  overrides : List Override
  deriving DecidableEq, Repr

/-- Modelled from the spec: the persistent store of section 6 —
`GetDevProject` is keyed lookup failing NotFound, `InsertProject` fails
AlreadyExists on a taken key, `UpdateProject` reports whether a row changed,
`GetOverridesForProject` filters by project key, `UpsertOverride` replaces
the (ProjectKey, FlagKey) row or appends it. -/
def listStore : Store StoreState where
  GetDevProject s key :=
    match s.projects.find? (fun p => p.Key == key) with
    | some p => .ok p
    | none => .error (.notFound "project" key)
  InsertProject s p :=
    if s.projects.any (fun q => q.Key == p.Key) then .error (.alreadyExists "project" p.Key)
    else .ok { s with projects := s.projects ++ [p] }
  UpdateProject s p :=
    if s.projects.any (fun q => q.Key == p.Key) then
      .ok (true, { s with projects := s.projects.map fun q => if q.Key == p.Key then p else q })
    else .ok (false, s)
  GetOverridesForProject s key :=
    .ok (s.overrides.filter fun o => o.ProjectKey == key)
  UpsertOverride s o :=
    if s.overrides.any (fun q => q.ProjectKey == o.ProjectKey && q.FlagKey == o.FlagKey) then
      .ok (o, { s with overrides := s.overrides.map fun q =>
        if q.ProjectKey == o.ProjectKey && q.FlagKey == o.FlagKey then o else q })
    else .ok (o, { s with overrides := s.overrides ++ [o] })

/-! ## Lemmas about override layering -/

theorem FlagsState.lookup_map (f : String → FlagState → FlagState) (l : FlagsState)
    (k : String) :
    FlagsState.lookup (List.map (fun kv => (kv.1, f kv.1 kv.2)) l) k
      = (FlagsState.lookup l k).map (f k) := by
  induction l with
  | nil => rfl
  | cons kv t ih =>
    by_cases h : (kv.1 == k) = true
    · have hk : kv.1 = k := by simpa using h
      subst hk
      simp [FlagsState.lookup, List.find?]
    · have hb : (kv.1 == k) = false := by simpa using h
      simpa [FlagsState.lookup, List.find?, hb] using ih

theorem layeredFlags_lookup (project : Project) (overrides : Overrides) (k : String) :
    FlagsState.lookup (layeredFlags project overrides) k
      = (FlagsState.lookup project.AllFlagsState k).map (layerFlag overrides k) :=
  FlagsState.lookup_map (layerFlag overrides) project.AllFlagsState k

theorem layeredFlags_keys (project : Project) (overrides : Overrides) :
    List.map Prod.fst (layeredFlags project overrides)
      = List.map Prod.fst project.AllFlagsState := by
  simp [layeredFlags, List.map_map]

/-! ## Shared concrete fixtures for the witnesses -/

/-- A project with one synced boolean flag, as in the spec's version-bump
scenario. -/
def wProject : Project :=
  { Key := "projKey"
    SourceEnvironmentKey := "env"
    SourceProjectKey := ""
    Context := defaultContext
    LastSyncTime := 0
    AllFlagsState := [("flg", { Value := .boolV false, Version := 1 })]
    AvailableVariations := [] }

/-- An active override flipping `wProject`'s flag to true. -/
def wOverrideActive : Override :=
  { ProjectKey := "projKey", FlagKey := "flg", Value := .boolV true, Active := true,
    Version := 1 }

/-- An inactive override for `wProject`'s flag. -/
def wOverrideInactive : Override :=
  { ProjectKey := "projKey", FlagKey := "flg", Value := .boolV true, Active := false,
    Version := 1 }

/-- Store state holding `wProject` and its active override. -/
def wStateActive : StoreState := { projects := [wProject], overrides := [wOverrideActive] }

/-- Store state holding `wProject` and its inactive override. -/
def wStateInactive : StoreState :=
  { projects := [wProject], overrides := [wOverrideInactive] }

/-! ## C3 -/

/-- C3: for every project and every flag key present in its synced
AllFlagsState that has an active override, GetFlagStateWithOverridesForProject
returns for that key a FlagState whose Value is the override's Value and whose
Version is the synced Version plus one. -/
theorem C3_active_override_version_bump {σ : Type} (store : Store σ) (s : σ)
    (project : Project) (flagKey : String) (synced : FlagState)
    (overrides : Overrides) (override : Override)
    (hov : store.GetOverridesForProject s project.Key = .ok overrides)
    (hsync : FlagsState.lookup project.AllFlagsState flagKey = some synced)
    (hfind : overrides.GetFlag flagKey = some override)
    (hactive : override.Active = true) :
    (project.GetFlagStateWithOverridesForProject store s).1
        = .ok (layeredFlags project overrides) ∧
      FlagsState.lookup (layeredFlags project overrides) flagKey
        = some { Value := override.Value, Version := synced.Version + 1 } := by
  constructor
  · simp [Project.GetFlagStateWithOverridesForProject, hov]
  · rw [layeredFlags_lookup, hsync]
    simp [layerFlag, hfind, Override.Apply, hactive]

/-- Witness for C3 at the spec's concrete scenario: synced
`{Value: false, Version: 1}` with active override `{Value: true}` yields
`{Value: true, Version: 2}`. -/
theorem C3_witness :
    (wProject.GetFlagStateWithOverridesForProject listStore wStateActive).1
        = .ok (layeredFlags wProject [wOverrideActive]) ∧
      FlagsState.lookup (layeredFlags wProject [wOverrideActive]) "flg"
        = some { Value := .boolV true, Version := 2 } := by
  have h := C3_active_override_version_bump listStore wStateActive wProject "flg"
    { Value := .boolV false, Version := 1 } [wOverrideActive] wOverrideActive
    rfl rfl rfl rfl
  simpa [wOverrideActive] using h

/-! ## C4 -/

/-- C4: GetFlagStateWithOverridesForProject is idempotent and non-mutating:
the store state comes back unchanged, a second call with the returned store
state gives an equal result, and the trace contains no store write. -/
theorem C4_layering_idempotent_nonmutating {σ : Type} (store : Store σ) (s : σ)
    (project : Project) :
    (project.GetFlagStateWithOverridesForProject store s).2.1 = s ∧
      (project.GetFlagStateWithOverridesForProject store
          (project.GetFlagStateWithOverridesForProject store s).2.1).1
        = (project.GetFlagStateWithOverridesForProject store s).1 ∧
      ∀ e ∈ (project.GetFlagStateWithOverridesForProject store s).2.2,
        e.isWrite = false := by
  cases h : store.GetOverridesForProject s project.Key <;>
    simp [Project.GetFlagStateWithOverridesForProject, h, Effect.isWrite]

/-- Witness for C4 at the concrete fixture. -/
theorem C4_witness :
    (wProject.GetFlagStateWithOverridesForProject listStore wStateActive).2.1
        = wStateActive ∧
      (wProject.GetFlagStateWithOverridesForProject listStore
          (wProject.GetFlagStateWithOverridesForProject listStore wStateActive).2.1).1
        = (wProject.GetFlagStateWithOverridesForProject listStore wStateActive).1 ∧
      ∀ e ∈ (wProject.GetFlagStateWithOverridesForProject listStore wStateActive).2.2,
        e.isWrite = false :=
  C4_layering_idempotent_nonmutating listStore wStateActive wProject

/-! ## C5 -/

/-- C5: for every override with Active=false, GetFlagStateWithOverridesForProject
treats it as absent: the layered state for that override's flag key equals the
synced, unoverridden FlagState. -/
theorem C5_inactive_override_ignored {σ : Type} (store : Store σ) (s : σ)
    (project : Project) (synced : FlagState) (overrides : Overrides)
    (override : Override)
    (hov : store.GetOverridesForProject s project.Key = .ok overrides)
    (hsync : FlagsState.lookup project.AllFlagsState override.FlagKey = some synced)
    (hfind : overrides.GetFlag override.FlagKey = some override)
    (hinactive : override.Active = false) :
    (project.GetFlagStateWithOverridesForProject store s).1
        = .ok (layeredFlags project overrides) ∧
      FlagsState.lookup (layeredFlags project overrides) override.FlagKey
        = some synced := by
  constructor
  · simp [Project.GetFlagStateWithOverridesForProject, hov]
  · rw [layeredFlags_lookup, hsync]
    simp [layerFlag, hfind, Override.Apply, hinactive]

/-- Witness for C5 at the concrete fixture: the inactive override leaves the
synced state `{Value: false, Version: 1}` untouched. -/
theorem C5_witness :
    (wProject.GetFlagStateWithOverridesForProject listStore wStateInactive).1
        = .ok (layeredFlags wProject [wOverrideInactive]) ∧
      FlagsState.lookup (layeredFlags wProject [wOverrideInactive]) "flg"
        = some { Value := .boolV false, Version := 1 } := by
  have h := C5_inactive_override_ignored listStore wStateInactive wProject
    { Value := .boolV false, Version := 1 } [wOverrideInactive] wOverrideInactive
    rfl rfl rfl rfl
  simpa [wOverrideInactive] using h

/-! ## C9 -/

/-- C9: the domain of the mapping returned by
GetFlagStateWithOverridesForProject is exactly the set of flag keys of the
project's synced AllFlagsState: the key sequence is preserved, and a key is
present in the layered output exactly when it is present in the synced
snapshot (so overrides for unknown flag keys contribute nothing and no synced
key is dropped). -/
theorem C9_layered_domain_is_synced_domain {σ : Type} (store : Store σ) (s : σ)
    (project : Project) (overrides : Overrides)
    (hov : store.GetOverridesForProject s project.Key = .ok overrides) :
    (project.GetFlagStateWithOverridesForProject store s).1
        = .ok (layeredFlags project overrides) ∧
      List.map Prod.fst (layeredFlags project overrides)
        = List.map Prod.fst project.AllFlagsState ∧
      ∀ k, (FlagsState.lookup (layeredFlags project overrides) k).isSome
            = (FlagsState.lookup project.AllFlagsState k).isSome := by
  refine ⟨by simp [Project.GetFlagStateWithOverridesForProject, hov],
    layeredFlags_keys project overrides, fun k => ?_⟩
  rw [layeredFlags_lookup]
  cases FlagsState.lookup project.AllFlagsState k <;> simp

/-- Witness for C9: an override for an unknown flag key contributes nothing
and the synced key remains. -/
theorem C9_witness :
    (wProject.GetFlagStateWithOverridesForProject listStore wStateActive).1
        = .ok (layeredFlags wProject [wOverrideActive]) ∧
      List.map Prod.fst (layeredFlags wProject [wOverrideActive])
        = List.map Prod.fst wProject.AllFlagsState ∧
      ∀ k, (FlagsState.lookup (layeredFlags wProject [wOverrideActive]) k).isSome
            = (FlagsState.lookup wProject.AllFlagsState k).isSome :=
  C9_layered_domain_is_synced_domain listStore wStateActive wProject [wOverrideActive] rfl

/-! ## C8 -/

/-- An always-failing observer handler. -/
def wObsFail : SyncEvent → Option Unit := fun _ => none

/-- An always-succeeding observer handler. -/
def wObsOk : SyncEvent → Option Unit := fun _ => some ()

/-- A registry with a failing observer registered before a succeeding one. -/
def wObservers : Observers := { observers := [wObsFail, wObsOk] }

/-- The event used by the observer witnesses. -/
def wEvent : SyncEvent := { ProjectKey := "projKey", AllFlagsState := [] }

/-- C8: Notify invokes each registered observer's handler synchronously, in
registration order, with the same SyncEvent value: every position of the
delivery list is that observer's handler applied to the event (so an earlier
observer's failure cannot prevent a later delivery), and registering appends
the new observer after the existing deliveries. -/
theorem C8_notify_order_and_isolation (os : Observers) (event : SyncEvent)
    (handler : SyncEvent → Option Unit) :
    (os.Notify event).length = os.observers.length ∧
      (∀ i : Nat, (os.Notify event)[i]? = (os.observers[i]?).map fun h => h event) ∧
      (os.RegisterObserver handler).Notify event = os.Notify event ++ [handler event] := by
  refine ⟨by simp [Observers.Notify], fun i => ?_,
    by simp [Observers.Notify, Observers.RegisterObserver]⟩
  simp [Observers.Notify]

/-- Witness for C8: with a failing observer registered first, the second
observer still receives the event. -/
theorem C8_witness :
    (wObservers.Notify wEvent).length = wObservers.observers.length ∧
      (wObservers.Notify wEvent)[1]? = (wObservers.observers[1]?).map fun h => h wEvent :=
  ⟨(C8_notify_order_and_isolation wObservers wEvent wObsOk).1,
   (C8_notify_order_and_isolation wObservers wEvent wObsOk).2.1 1⟩

/-! ## C2 -/

/-- C2: whenever UpdateProject's earlier steps succeed and the store's
conditional update succeeds but reports changed=false, UpdateProject fails
with the conflict error "Project not updated". -/
theorem C2_update_conflict (api : Api) (sdk : Sdk) {σ : Type} (store : Store σ)
    (now : Nat) (s : σ) (projectKey : String) (ctx : Option LDContext)
    (sourceEnvironmentKey : Option String) (project0 project : Project)
    (tr : List Effect) (s1 : σ)
    (hget : store.GetDevProject s projectKey = .ok project0)
    (hrefresh : (applyProjectUpdates project0 ctx
        sourceEnvironmentKey).refreshExternalState api sdk now = (.ok project, tr))
    (hupd : store.UpdateProject s project = .ok (false, s1)) :
    (UpdateProject api sdk store now s projectKey ctx sourceEnvironmentKey).1
      = .error (.base "Project not updated") := by
  simp [UpdateProject, hget, hrefresh, hupd]

/-- A management adapter returning fixed successful answers. -/
def wApi : Api :=
  { GetSdkKey := fun _ _ => .ok "sdkKey"
    GetAllFlags := fun _ => .ok []
    GetProjectEnvironments := fun _ _ _ => .ok [] }

/-- An evaluation adapter returning an empty all-flags state. -/
def wSdk : Sdk := { GetAllFlagsState := fun _ _ => .ok [] }

/-- A store whose conditional update succeeds but reports no row changed. -/
def conflictStore : Store Unit :=
  { GetDevProject := fun _ _ => .ok wProject
    InsertProject := fun s _ => .ok s
    UpdateProject := fun s _ => .ok (false, s)
    GetOverridesForProject := fun _ _ => .ok []
    UpsertOverride := fun s o => .ok (o, s) }

/-- `wProject` after a refresh against `wApi`/`wSdk` at time 0. -/
def wProjectRefreshed : Project := { wProject with AllFlagsState := [] }

/-- Witness for C2: with every earlier step succeeding and the store
reporting changed=false, UpdateProject returns "Project not updated". -/
theorem C2_witness :
    (UpdateProject wApi wSdk conflictStore 0 () "projKey" none none).1
      = .error (.base "Project not updated") :=
  C2_update_conflict wApi wSdk conflictStore 0 () "projKey" none none wProject
    wProjectRefreshed
    [.getSdkKeyE "projKey" "env", .getAllFlagsStateE defaultContext "sdkKey",
     .getAllFlagsE "projKey"] ()
    rfl rfl rfl

/-! ## C10 -/

/-- C10: GetEnvironmentsForProject queries the remote management adapter with
the stored project's GetCloudProjectKey (the original remote project for a
clone, since a non-empty SourceProjectKey is used instead of the local Key)
and maps the adapter's environments into the result; if the project is absent
from the store, the store's error is returned unmodified and the trace shows
no remote call. -/
theorem C10_environments_use_cloud_key (api : Api) {σ : Type} (store : Store σ)
    (s : σ) (projectKey query : String) (limit : Option Int) :
    (∀ e, store.GetDevProject s projectKey = .error e →
        GetEnvironmentsForProject api store s projectKey query limit
          = (.error e, [.getDevProjectE projectKey])) ∧
      (∀ project, store.GetDevProject s projectKey = .ok project →
        (GetEnvironmentsForProject api store s projectKey query limit).2
            = [.getDevProjectE projectKey,
               .getProjectEnvironmentsE project.GetCloudProjectKey query limit] ∧
          (project.SourceProjectKey ≠ "" →
            project.GetCloudProjectKey = project.SourceProjectKey) ∧
          ∀ environments,
            api.GetProjectEnvironments project.GetCloudProjectKey query limit
              = .ok environments →
            (GetEnvironmentsForProject api store s projectKey query limit).1
              = .ok (environments.map fun environment =>
                  { Key := environment.Key, Name := environment.Name })) := by
  constructor
  · intro e he
    simp [GetEnvironmentsForProject, he]
  · intro project hp
    refine ⟨?_, ?_, ?_⟩
    · cases hq : api.GetProjectEnvironments project.GetCloudProjectKey query limit <;>
        simp [GetEnvironmentsForProject, hp, hq]
    · intro hne
      simp [Project.GetCloudProjectKey, bne_iff_ne, hne]
    · intro environments henv
      simp [GetEnvironmentsForProject, hp, henv]

/-- A cloned project stored for the C10 witness. -/
def wClonedProject : Project :=
  { Key := "local-clone"
    SourceEnvironmentKey := "env"
    SourceProjectKey := "cloud-project"
    Context := defaultContext
    LastSyncTime := 0
    AllFlagsState := []
    AvailableVariations := [] }

/-- Store state holding the cloned project. -/
def wStateCloned : StoreState := { projects := [wClonedProject], overrides := [] }

/-- Witness for C10: a missing project returns the store's not-found error
with no remote call, and a stored clone is queried at the original remote
project key, not its local key. -/
theorem C10_witness :
    GetEnvironmentsForProject wApi listStore wStateCloned "nope" "q" none
        = (.error (.notFound "project" "nope"), [.getDevProjectE "nope"]) ∧
      (GetEnvironmentsForProject wApi listStore wStateCloned "local-clone" "q" none).2
        = [.getDevProjectE "local-clone",
           .getProjectEnvironmentsE "cloud-project" "q" none] := by
  constructor
  · exact (C10_environments_use_cloud_key wApi listStore wStateCloned "nope" "q" none).1
      (.notFound "project" "nope") rfl
  · have h := ((C10_environments_use_cloud_key wApi listStore wStateCloned "local-clone"
      "q" none).2 wClonedProject rfl).1
    simpa [wClonedProject, Project.GetCloudProjectKey] using h

/-! ## C6 -/

theorem newProject_GetCloudProjectKey (projectKey sourceEnvironmentKey : String)
    (ldCtx : Option LDContext) :
    (newProject projectKey sourceEnvironmentKey ldCtx).GetCloudProjectKey = projectKey := by
  simp [newProject, Project.GetCloudProjectKey]

theorem refresh_trace_no_write (api : Api) (sdk : Sdk) (now : Nat) (p : Project) :
    ∀ e ∈ (p.refreshExternalState api sdk now).2, e.isWrite = false := by
  simp only [Project.refreshExternalState, Project.fetchFlagState,
    Project.fetchAvailableVariations]
  have hcl : ∀ fs : FlagsState,
      Project.GetCloudProjectKey { p with AllFlagsState := fs, LastSyncTime := now }
        = p.GetCloudProjectKey := fun _ => rfl
  rcases h1 : api.GetSdkKey p.GetCloudProjectKey p.SourceEnvironmentKey with e1 | sdkKey
  · simp [h1, Effect.isWrite]
  · rcases h2 : sdk.GetAllFlagsState p.Context sdkKey with e2 | sdkFlags
    · simp [h1, h2, Effect.isWrite]
    · rcases h3 : api.GetAllFlags p.GetCloudProjectKey with e3 | flags <;>
        simp [hcl, h1, h2, h3, Effect.isWrite]

/-- C6: CreateProject is atomic with respect to remote failure.  If the
refresh fails, CreateProject returns the refresh's error with the store state
unchanged and no insert in the trace; each of the three remote calls (SDK-key
lookup, all-flags-state fetch, flag-catalog fetch) failing makes the refresh
fail with that call's error unmodified; and an insert can appear in the trace
only when the whole refresh succeeded. -/
theorem C6_create_atomic_on_remote_failure (api : Api) (sdk : Sdk) {σ : Type}
    (store : Store σ) (now : Nat) (s : σ) (projectKey sourceEnvironmentKey : String)
    (ldCtx : Option LDContext) :
    (∀ e, ((newProject projectKey sourceEnvironmentKey
            ldCtx).refreshExternalState api sdk now).1 = .error e →
        CreateProject api sdk store now s projectKey sourceEnvironmentKey ldCtx
            = (.error e, s,
               ((newProject projectKey sourceEnvironmentKey
                  ldCtx).refreshExternalState api sdk now).2) ∧
          ∀ p, Effect.insertProjectE p ∉
            (CreateProject api sdk store now s projectKey sourceEnvironmentKey ldCtx).2.2) ∧
      (∀ e, api.GetSdkKey projectKey sourceEnvironmentKey = .error e →
        ((newProject projectKey sourceEnvironmentKey
            ldCtx).refreshExternalState api sdk now).1 = .error e) ∧
      (∀ e sdkKey, api.GetSdkKey projectKey sourceEnvironmentKey = .ok sdkKey →
        sdk.GetAllFlagsState (newProject projectKey sourceEnvironmentKey ldCtx).Context
            sdkKey = .error e →
        ((newProject projectKey sourceEnvironmentKey
            ldCtx).refreshExternalState api sdk now).1 = .error e) ∧
      (∀ e sdkKey sdkFlags, api.GetSdkKey projectKey sourceEnvironmentKey = .ok sdkKey →
        sdk.GetAllFlagsState (newProject projectKey sourceEnvironmentKey ldCtx).Context
            sdkKey = .ok sdkFlags →
        api.GetAllFlags projectKey = .error e →
        ((newProject projectKey sourceEnvironmentKey
            ldCtx).refreshExternalState api sdk now).1 = .error e) ∧
      (∀ p, Effect.insertProjectE p ∈
          (CreateProject api sdk store now s projectKey sourceEnvironmentKey ldCtx).2.2 →
        ∃ pr tr, (newProject projectKey sourceEnvironmentKey
            ldCtx).refreshExternalState api sdk now = (.ok pr, tr)) := by
  have hcloud := newProject_GetCloudProjectKey projectKey sourceEnvironmentKey ldCtx
  have hsek : (newProject projectKey sourceEnvironmentKey ldCtx).SourceEnvironmentKey
      = sourceEnvironmentKey := rfl
  refine ⟨?_, ?_, ?_, ?_, ?_⟩
  · intro e he
    rcases hfull : (newProject projectKey sourceEnvironmentKey
        ldCtx).refreshExternalState api sdk now with ⟨r1, r2⟩
    rw [hfull] at he
    simp only at he
    subst he
    constructor
    · simp [CreateProject, hfull]
    · intro p hp
      simp only [CreateProject, hfull] at hp
      have := refresh_trace_no_write api sdk now
        (newProject projectKey sourceEnvironmentKey ldCtx) (Effect.insertProjectE p)
      rw [hfull] at this
      simpa [Effect.isWrite] using this hp
  · intro e he
    simp [Project.refreshExternalState, Project.fetchFlagState, hcloud, hsek, he]
  · intro e sdkKey hk he
    simp [Project.refreshExternalState, Project.fetchFlagState, hcloud, hsek, hk, he]
  · intro e sdkKey sdkFlags hk hflags he
    simp only [Project.refreshExternalState, Project.fetchFlagState,
      Project.fetchAvailableVariations, hcloud, hsek, hk, hflags]
    simp [Project.GetCloudProjectKey, newProject, he]
  · intro p hp
    rcases hfull : (newProject projectKey sourceEnvironmentKey
        ldCtx).refreshExternalState api sdk now with ⟨r1, r2⟩
    cases r1 with
    | error e =>
      simp only [CreateProject, hfull] at hp
      have := refresh_trace_no_write api sdk now
        (newProject projectKey sourceEnvironmentKey ldCtx) (Effect.insertProjectE p)
      rw [hfull] at this
      simpa [Effect.isWrite] using this hp
    | ok pr => exact ⟨pr, r2, rfl⟩

/-- A management adapter whose SDK-key lookup fails. -/
def failSdkKeyApi : Api :=
  { GetSdkKey := fun _ _ => .error (.base "fetch flag state fails")
    GetAllFlags := fun _ => .ok []
    GetProjectEnvironments := fun _ _ _ => .ok [] }

/-- An empty concrete store state. -/
def wEmptyState : StoreState := { projects := [], overrides := [] }

/-- Witness for C6: a failing SDK-key lookup makes CreateProject return the
lookup's error verbatim, with the store untouched and no insert in the
trace. -/
theorem C6_witness :
    (CreateProject failSdkKeyApi wSdk listStore 0 wEmptyState "proj" "env" none
        = (.error (.base "fetch flag state fails"), wEmptyState,
           ((newProject "proj" "env"
              none).refreshExternalState failSdkKeyApi wSdk 0).2)) ∧
      ∀ p, Effect.insertProjectE p ∉
        (CreateProject failSdkKeyApi wSdk listStore 0 wEmptyState "proj" "env" none).2.2 :=
  (C6_create_atomic_on_remote_failure failSdkKeyApi wSdk listStore 0 wEmptyState
    "proj" "env" none).1 (.base "fetch flag state fails") rfl

/-! ## C7 -/

/-- The store state reached by upserting, in order, the clones (re-keyed to
`targetKey`) of a list of overrides, as long as every upsert succeeds. -/
def upsertChain {σ : Type} (store : Store σ) (targetKey : String) :
    List Override → σ → Option σ
  | [], s => some s
  | override :: rest, s =>
    match store.UpsertOverride s (clonedOverrideFor targetKey override) with
    | .error _ => none
    | .ok (_, s1) => upsertChain store targetKey rest s1

theorem cloneOverridesLoop_mem {σ : Type} (store : Store σ) (targetKey : String) :
    ∀ (ovs : List Override) (s : σ) (o : Override),
      Effect.upsertOverrideE o ∈ (cloneOverridesLoop store targetKey ovs s).2.2 →
      ∃ sv ∈ ovs, o = clonedOverrideFor targetKey sv := by
  intro ovs
  induction ovs with
  | nil => intro s o h; simp [cloneOverridesLoop] at h
  | cons ov rest ih =>
    intro s o h
    simp only [cloneOverridesLoop] at h
    rcases hu : store.UpsertOverride s (clonedOverrideFor targetKey ov) with e | pr
    · rw [hu] at h
      simp at h
      exact ⟨ov, by simp, h⟩
    · rcases pr with ⟨o2, s1⟩
      rw [hu] at h
      simp at h
      rcases h with h | h
      · exact ⟨ov, by simp, h⟩
      · obtain ⟨sv, hsv, ho⟩ := ih s1 o h
        exact ⟨sv, by simp [hsv], ho⟩

theorem cloneOverridesLoop_error {σ : Type} (store : Store σ) (targetKey : String) :
    ∀ (ovs : List Override) (s : σ) (err : GoError) (s2 : σ) (tr : List Effect),
      cloneOverridesLoop store targetKey ovs s = (.error err, s2, tr) →
      ∃ pre sv rest2 s1 e, ovs = pre ++ sv :: rest2 ∧
        upsertChain store targetKey pre s = some s1 ∧
        store.UpsertOverride s1 (clonedOverrideFor targetKey sv) = .error e ∧
        err = .wrap ("unable to clone override for flag " ++ sv.FlagKey) e ∧
        s2 = s1 := by
  intro ovs
  induction ovs with
  | nil => intro s err s2 tr h; simp [cloneOverridesLoop] at h
  | cons ov rest ih =>
    intro s err s2 tr h
    simp only [cloneOverridesLoop] at h
    rcases hu : store.UpsertOverride s (clonedOverrideFor targetKey ov) with e | pr
    · rw [hu] at h
      simp at h
      obtain ⟨herr, hs2, htr⟩ := h
      refine ⟨[], ov, rest, s, e, by simp, by simp [upsertChain], hu, ?_, ?_⟩
      · exact herr.symm
      · exact hs2.symm
    · rcases pr with ⟨o2, s1⟩
      rw [hu] at h
      simp at h
      obtain ⟨hres, hs2, htr⟩ := h
      rcases hrec : cloneOverridesLoop store targetKey rest s1 with ⟨res1, s21, tr1⟩
      rw [hrec] at hres hs2
      simp at hres hs2
      subst hres
      obtain ⟨pre, sv, rest2, s3, e, hsplit, hchain, hfail, herr2, hstate⟩ :=
        ih s1 err s21 tr1 hrec
      refine ⟨ov :: pre, sv, rest2, s3, e, by simp [hsplit], ?_, hfail, herr2, ?_⟩
      · simpa [upsertChain, hu] using hchain
      · rw [hs2] at hstate
        exact hstate

theorem cloneOverridesLoop_ok {σ : Type} (store : Store σ) (targetKey : String) :
    ∀ (ovs : List Override) (s s2 : σ) (tr : List Effect),
      cloneOverridesLoop store targetKey ovs s = (.ok (), s2, tr) →
      upsertChain store targetKey ovs s = some s2 ∧
      tr = ovs.map fun sv => Effect.upsertOverrideE (clonedOverrideFor targetKey sv) := by
  intro ovs
  induction ovs with
  | nil =>
    intro s s2 tr h
    simp [cloneOverridesLoop] at h
    obtain ⟨hs2, htr⟩ := h
    simp [upsertChain, hs2, htr]
  | cons ov rest ih =>
    intro s s2 tr h
    simp only [cloneOverridesLoop] at h
    rcases hu : store.UpsertOverride s (clonedOverrideFor targetKey ov) with e | pr
    · rw [hu] at h
      simp at h
    · rcases pr with ⟨o2, s1⟩
      rw [hu] at h
      simp at h
      obtain ⟨hres, hs2, htr⟩ := h
      rcases hrec : cloneOverridesLoop store targetKey rest s1 with ⟨res1, s21, tr1⟩
      rw [hrec] at hres hs2 htr
      simp at hres hs2 htr
      subst hres
      obtain ⟨hchain, htr1⟩ := ih s1 s21 tr1 hrec
      constructor
      · simp only [upsertChain, hu]
        rw [hchain, hs2]
      · rw [← htr, htr1]
        simp

/-- C7: CloneProject with includeOverrides=true re-inserts each of the
source's overrides: on a successful clone the store threads one upsert per
source override, in order, each a copy whose ProjectKey is the target key and
whose FlagKey, Value and Active are the source's, with Version left at zero
rather than the source's (every upsert in the trace is such a copy, and the
trace carries exactly one upsert per source override); and when some upsert
fails, the clone returns the wrapped error naming the failing flag key and
keeps the store state produced by the successful prefix of upserts (no
rollback). -/
theorem C7_clone_overrides_copy_and_no_rollback {σ : Type} (store : Store σ)
    (now : Nat) (s : σ) (sourceKey targetKey : String) (sourceProject : Project)
    (s1 : σ) (sourceOverrides : Overrides)
    (hget : store.GetDevProject s sourceKey = .ok sourceProject)
    (hins : store.InsertProject s (cloneOf sourceProject targetKey now) = .ok s1)
    (hovs : store.GetOverridesForProject s1 sourceKey = .ok sourceOverrides) :
    (∀ o, Effect.upsertOverrideE o ∈
        (CloneProject store now s sourceKey targetKey true).2.2 →
      ∃ sv ∈ sourceOverrides, o.ProjectKey = targetKey ∧ o.FlagKey = sv.FlagKey ∧
        o.Value = sv.Value ∧ o.Active = sv.Active ∧ o.Version = 0) ∧
      (∀ err, (CloneProject store now s sourceKey targetKey true).1 = .error err →
        ∃ pre sv rest s2 e, sourceOverrides = pre ++ sv :: rest ∧
          upsertChain store targetKey pre s1 = some s2 ∧
          store.UpsertOverride s2 (clonedOverrideFor targetKey sv) = .error e ∧
          err = .wrap ("unable to clone override for flag " ++ sv.FlagKey) e ∧
          (CloneProject store now s sourceKey targetKey true).2.1 = s2) ∧
      ∀ p, (CloneProject store now s sourceKey targetKey true).1 = .ok p →
        upsertChain store targetKey sourceOverrides s1
            = some (CloneProject store now s sourceKey targetKey true).2.1 ∧
          (CloneProject store now s sourceKey targetKey true).2.2
            = [.getDevProjectE sourceKey,
               .insertProjectE (cloneOf sourceProject targetKey now),
               .getOverridesE sourceKey]
              ++ sourceOverrides.map
                  (fun sv => Effect.upsertOverrideE (clonedOverrideFor targetKey sv)) := by
  rcases hloop : cloneOverridesLoop store targetKey sourceOverrides s1 with ⟨res, s2, tr⟩
  have h22 : (CloneProject store now s sourceKey targetKey true).2.2
      = [.getDevProjectE sourceKey,
         .insertProjectE (cloneOf sourceProject targetKey now),
         .getOverridesE sourceKey] ++ tr := by
    simp only [CloneProject, hget, hins, hovs, hloop]
    cases res <;> simp
  have h21 : (CloneProject store now s sourceKey targetKey true).2.1 = s2 := by
    simp only [CloneProject, hget, hins, hovs, hloop]
    cases res <;> simp
  have h1 : ∀ err, (CloneProject store now s sourceKey targetKey true).1 = .error err →
      res = .error err := by
    simp only [CloneProject, hget, hins, hovs, hloop]
    cases res <;> simp
  have h1ok : ∀ p, (CloneProject store now s sourceKey targetKey true).1 = .ok p →
      res = .ok () := by
    simp only [CloneProject, hget, hins, hovs, hloop]
    cases res with
    | error e => simp
    | ok u => cases u; simp
  refine ⟨?_, ?_, ?_⟩
  · intro o ho
    rw [h22] at ho
    have hotr : Effect.upsertOverrideE o ∈ tr := by
      rcases List.mem_append.mp ho with h | h
      · simp at h
      · exact h
    obtain ⟨sv, hsv, heq⟩ := cloneOverridesLoop_mem store targetKey sourceOverrides s1 o
      (by rw [hloop]; simpa using hotr)
    exact ⟨sv, hsv, by simp [heq, clonedOverrideFor]⟩
  · intro err herr
    have hres := h1 err herr
    subst hres
    obtain ⟨pre, sv, rest2, s3, e, hsplit, hchain, hfail, herr2, hstate⟩ :=
      cloneOverridesLoop_error store targetKey sourceOverrides s1 err s2 tr hloop
    exact ⟨pre, sv, rest2, s3, e, hsplit, hchain, hfail, herr2, by rw [h21, hstate]⟩
  · intro p hp
    have hres := h1ok p hp
    subst hres
    obtain ⟨hchain, htr⟩ :=
      cloneOverridesLoop_ok store targetKey sourceOverrides s1 s2 tr hloop
    exact ⟨by rw [h21]; exact hchain, by rw [h22, htr]⟩

/-- A store whose override upsert fails for flag key "f2" and otherwise
behaves like the concrete list store. -/
def failUpsertStore : Store StoreState :=
  { GetDevProject := listStore.GetDevProject
    InsertProject := listStore.InsertProject
    UpdateProject := listStore.UpdateProject
    GetOverridesForProject := listStore.GetOverridesForProject
    UpsertOverride := fun s o =>
      if o.FlagKey == "f2" then .error (.base "upsert fails")
      else listStore.UpsertOverride s o }

/-- The source project for the C7 witness. -/
def c7Source : Project :=
  { Key := "src", SourceEnvironmentKey := "env", SourceProjectKey := "",
    Context := defaultContext, LastSyncTime := 0, AllFlagsState := [],
    AvailableVariations := [] }

/-- First source override (copies fine). -/
def c7Ov1 : Override :=
  { ProjectKey := "src", FlagKey := "f1", Value := .boolV true, Active := true,
    Version := 3 }

/-- Second source override (its upsert fails). -/
def c7Ov2 : Override :=
  { ProjectKey := "src", FlagKey := "f2", Value := .boolV false, Active := false,
    Version := 7 }

/-- Initial store state for the C7 witness. -/
def c7State : StoreState := { projects := [c7Source], overrides := [c7Ov1, c7Ov2] }

/-- Store state after the cloned project's insert. -/
def c7S1 : StoreState :=
  { projects := [c7Source, cloneOf c7Source "tgt" 9], overrides := [c7Ov1, c7Ov2] }

/-- Witness for C7: against the failing store, cloning "src" with overrides
fails at flag "f2" with the wrapped error after the "f1" override was already
copied, and the returned store state is the one reached by the successful
prefix; against the plain store, the successful clone upserts each of the two
source overrides, in order. -/
theorem C7_witness :
    (∃ pre sv rest s2 e, ([c7Ov1, c7Ov2] : Overrides) = pre ++ sv :: rest ∧
      upsertChain failUpsertStore "tgt" pre c7S1 = some s2 ∧
      failUpsertStore.UpsertOverride s2 (clonedOverrideFor "tgt" sv) = .error e ∧
      GoError.wrap ("unable to clone override for flag " ++ "f2") (.base "upsert fails")
        = .wrap ("unable to clone override for flag " ++ sv.FlagKey) e ∧
      (CloneProject failUpsertStore 9 c7State "src" "tgt" true).2.1 = s2) ∧
      upsertChain listStore "tgt" [c7Ov1, c7Ov2] c7S1
          = some (CloneProject listStore 9 c7State "src" "tgt" true).2.1 ∧
        (CloneProject listStore 9 c7State "src" "tgt" true).2.2
          = [.getDevProjectE "src", .insertProjectE (cloneOf c7Source "tgt" 9),
             .getOverridesE "src"]
            ++ List.map (fun sv => Effect.upsertOverrideE (clonedOverrideFor "tgt" sv))
                [c7Ov1, c7Ov2] :=
  ⟨(C7_clone_overrides_copy_and_no_rollback failUpsertStore 9 c7State "src" "tgt"
      c7Source c7S1 [c7Ov1, c7Ov2] rfl rfl rfl).2.1
      (.wrap ("unable to clone override for flag " ++ "f2") (.base "upsert fails")) rfl,
   (C7_clone_overrides_copy_and_no_rollback listStore 9 c7State "src" "tgt"
      c7Source c7S1 [c7Ov1, c7Ov2] rfl rfl rfl).2.2
      (cloneOf c7Source "tgt" 9) rfl⟩

/-! ## C1 -/

/-- A project that is itself a clone: its provenance points at the remote
project "foo". -/
def c1A : Project :=
  { Key := "a", SourceEnvironmentKey := "env", SourceProjectKey := "foo",
    Context := defaultContext, LastSyncTime := 0, AllFlagsState := [],
    AvailableVariations := [] }

/-- Store holding only `c1A`. -/
def c1State : StoreState := { projects := [c1A], overrides := [] }

/-- The clone of `c1A` into target key "foo" (a free local key). -/
def c1B : Project := cloneOf c1A "foo" 1

/-- The clone of `c1B` into target key "c". -/
def c1C : Project := cloneOf c1B "c" 2

/-- C1 counterexample: with A itself a clone of remote project "foo", cloning
A into the free local key "foo" gives B, and cloning B gives C with
`C.SourceProjectKey = "foo" = B.Key` — so the claim's "never equals B.Key"
fails for this chain, even though `C.SourceProjectKey` does equal
`A.GetCloudProjectKey()`. -/
theorem C1_counterexample :
    (CloneProject listStore 1 c1State "a" "foo" false).1 = .ok c1B ∧
      (CloneProject listStore 2 (CloneProject listStore 1 c1State "a" "foo" false).2.1
          "foo" "c" false).1 = .ok c1C ∧
      c1C.SourceProjectKey = c1A.GetCloudProjectKey ∧
      c1C.SourceProjectKey = c1B.Key :=
  ⟨rfl, rfl, rfl, rfl⟩

theorem listStore_getDevProject_find (σ0 : StoreState) (key : String) (A : Project)
    (hA : listStore.GetDevProject σ0 key = .ok A) :
    σ0.projects.find? (fun p => p.Key == key) = some A := by
  revert hA
  simp only [listStore]
  cases hf : σ0.projects.find? (fun p => p.Key == key) with
  | none => intro h; simp at h
  | some p =>
    intro h
    simp at h
    rw [h]

theorem listStore_upsert_preserves_projects (s : StoreState) (o o2 : Override)
    (s1 : StoreState) (hu : listStore.UpsertOverride s o = .ok (o2, s1)) :
    s1.projects = s.projects := by
  revert hu
  simp only [listStore]
  split <;> intro hu <;> simp at hu <;> rw [← hu.2]

theorem cloneOverridesLoop_listStore_ok (targetKey : String) :
    ∀ (ovs : List Override) (s : StoreState),
      (cloneOverridesLoop listStore targetKey ovs s).1 = .ok () ∧
      (cloneOverridesLoop listStore targetKey ovs s).2.1.projects = s.projects := by
  intro ovs
  induction ovs with
  | nil => intro s; simp [cloneOverridesLoop]
  | cons ov rest ih =>
    intro s
    rcases hu : listStore.UpsertOverride s (clonedOverrideFor targetKey ov) with e | pr
    · exfalso
      revert hu
      simp only [listStore]
      split <;> simp
    · rcases pr with ⟨o2, s1⟩
      have hproj := listStore_upsert_preserves_projects s _ o2 s1 hu
      simp only [cloneOverridesLoop, hu]
      exact ⟨(ih s1).1, by rw [(ih s1).2, hproj]⟩

theorem find?_append_of_none {α : Type} (p : α → Bool) (l1 l2 : List α)
    (h : l1.find? p = none) : (l1 ++ l2).find? p = l2.find? p := by
  induction l1 with
  | nil => simp
  | cons x t ih =>
    rw [List.find?_cons] at h
    cases hx : p x
    · rw [hx] at h
      simp only [List.cons_append, List.find?_cons, hx]
      exact ih h
    · rw [hx] at h
      cases h

theorem cloneOf_Key (p : Project) (targetKey : String) (now : Nat) :
    (cloneOf p targetKey now).Key = targetKey := rfl

theorem cloneOf_SourceProjectKey (p : Project) (targetKey : String) (now : Nat) :
    (cloneOf p targetKey now).SourceProjectKey = p.GetCloudProjectKey := rfl

theorem cloneProject_listStore_ok (σ0 : StoreState) (A B : Project)
    (sourceKey targetKey : String) (now : Nat) (io : Bool)
    (hA : listStore.GetDevProject σ0 sourceKey = .ok A)
    (hB : (CloneProject listStore now σ0 sourceKey targetKey io).1 = .ok B) :
    B = cloneOf A targetKey now ∧
      σ0.projects.any (fun q => q.Key == targetKey) = false ∧
      (CloneProject listStore now σ0 sourceKey targetKey io).2.1.projects
        = σ0.projects ++ [cloneOf A targetKey now] := by
  cases hany : σ0.projects.any (fun q => q.Key == targetKey) with
  | true =>
    have hins : listStore.InsertProject σ0 (cloneOf A targetKey now)
        = .error (.alreadyExists "project" (cloneOf A targetKey now).Key) := by
      simp only [listStore, cloneOf_Key, hany]
      simp
    exfalso
    revert hB
    simp only [CloneProject, hA, hins]
    simp
  | false =>
    have hins : listStore.InsertProject σ0 (cloneOf A targetKey now)
        = .ok { σ0 with projects := σ0.projects ++ [cloneOf A targetKey now] } := by
      simp only [listStore, cloneOf_Key, hany]
      simp
    cases io with
    | false =>
      refine ⟨?_, rfl, ?_⟩
      · revert hB
        simp only [CloneProject, hA, hins]
        simp
        exact fun h => h.symm
      · simp only [CloneProject, hA, hins]
        simp
    | true =>
      set s1 : StoreState :=
        { σ0 with projects := σ0.projects ++ [cloneOf A targetKey now] } with hs1
      have hovs : listStore.GetOverridesForProject s1 sourceKey
          = .ok (s1.overrides.filter (fun o => o.ProjectKey == sourceKey)) := rfl
      rcases hrec : cloneOverridesLoop listStore targetKey
          (s1.overrides.filter (fun o => o.ProjectKey == sourceKey)) s1 with ⟨res, s2, tr⟩
      have hloop := cloneOverridesLoop_listStore_ok targetKey
        (s1.overrides.filter (fun o => o.ProjectKey == sourceKey)) s1
      rw [hrec] at hloop
      simp at hloop
      obtain ⟨hres, hproj⟩ := hloop
      subst hres
      refine ⟨?_, rfl, ?_⟩
      · revert hB
        simp only [CloneProject, hA, hins, hovs, hrec]
        simp
        exact fun h => h.symm
      · simp only [CloneProject, hA, hins, hovs, hrec]
        simp only [hs1] at hproj ⊢
        simpa using hproj

/-- C1 (amended): for a chain starting from a normal project A (empty
SourceProjectKey, non-empty Key), if B = Clone(A) and C = Clone(B) both
succeed against the concrete store, then C.SourceProjectKey equals
A.GetCloudProjectKey() and never equals B.Key. -/
theorem C1_amended_clone_chain_provenance (σ0 : StoreState) (A B C : Project)
    (bKey cKey : String) (now1 now2 : Nat) (io1 io2 : Bool)
    (hA : listStore.GetDevProject σ0 A.Key = .ok A)
    (hnormal : A.SourceProjectKey = "")
    (hkey : A.Key ≠ "")
    (hB : (CloneProject listStore now1 σ0 A.Key bKey io1).1 = .ok B)
    (hC : (CloneProject listStore now2
        (CloneProject listStore now1 σ0 A.Key bKey io1).2.1 bKey cKey io2).1 = .ok C) :
    C.SourceProjectKey = A.GetCloudProjectKey ∧ C.SourceProjectKey ≠ B.Key := by
  obtain ⟨hBdef, hfresh, hσ1⟩ :=
    cloneProject_listStore_ok σ0 A B A.Key bKey now1 io1 hA hB
  have hfind := listStore_getDevProject_find σ0 A.Key A hA
  have hmemA : A ∈ σ0.projects := List.mem_of_find?_eq_some hfind
  have hBA : bKey ≠ A.Key := by
    intro h
    have hall := List.any_eq_false.mp hfresh A hmemA
    rw [← h] at hall
    simp at hall
  have hcloudA : A.GetCloudProjectKey = A.Key := by
    simp [Project.GetCloudProjectKey, hnormal]
  have hBkey : B.Key = bKey := by
    rw [hBdef]
    exact cloneOf_Key A bKey now1
  have hBspk : B.SourceProjectKey = A.Key := by
    rw [hBdef]
    simp [cloneOf, hcloudA]
  have hfindnone : σ0.projects.find? (fun p => p.Key == bKey) = none := by
    rw [List.find?_eq_none]
    intro x hx
    simpa using List.any_eq_false.mp hfresh x hx
  have hgetDevEq : ∀ (s : StoreState) (key : String),
      listStore.GetDevProject s key
        = match s.projects.find? (fun p => p.Key == key) with
          | some p => .ok p
          | none => .error (.notFound "project" key) := fun _ _ => rfl
  have hgetB : listStore.GetDevProject
      (CloneProject listStore now1 σ0 A.Key bKey io1).2.1 bKey = .ok B := by
    rw [hgetDevEq, hσ1, find?_append_of_none _ _ _ hfindnone]
    simp [List.find?, cloneOf_Key, hBdef]
  obtain ⟨hCdef, hfresh2, hσ2⟩ :=
    cloneProject_listStore_ok _ B C bKey cKey now2 io2 hgetB hC
  have hCspk : C.SourceProjectKey = B.GetCloudProjectKey := by
    rw [hCdef]
    exact cloneOf_SourceProjectKey B cKey now2
  have hBcloud : B.GetCloudProjectKey = A.Key := by
    rw [Project.GetCloudProjectKey, hBspk]
    simp [hkey]
  refine ⟨by rw [hCspk, hBcloud, hcloudA], ?_⟩
  rw [hCspk, hBcloud, hBkey]
  exact fun h => hBA h.symm

/-- A normal project for the C1 witness. -/
def c1NormalA : Project :=
  { Key := "orig", SourceEnvironmentKey := "env", SourceProjectKey := "",
    Context := defaultContext, LastSyncTime := 0, AllFlagsState := [],
    AvailableVariations := [] }

/-- Store holding only `c1NormalA`. -/
def c1NormalState : StoreState := { projects := [c1NormalA], overrides := [] }

/-- Witness for the amended C1: cloning the normal project "orig" to "b" and
then to "c" keeps the provenance at "orig" and never at "b". -/
theorem C1_witness :
    (cloneOf (cloneOf c1NormalA "b" 1) "c" 2).SourceProjectKey
        = c1NormalA.GetCloudProjectKey ∧
      (cloneOf (cloneOf c1NormalA "b" 1) "c" 2).SourceProjectKey
        ≠ (cloneOf c1NormalA "b" 1).Key :=
  C1_amended_clone_chain_provenance c1NormalState c1NormalA
    (cloneOf c1NormalA "b" 1) (cloneOf (cloneOf c1NormalA "b" 1) "c" 2)
    "b" "c" 1 2 false false rfl rfl (by decide) rfl rfl

end LdcliModel
